import Mathlib

/-!
# Pipeline Status Synchronization Engine — shallow embedding

A shallow embedding, in Lean 4, of the core state/render/merge logic of the
GitLab→Slack pipeline status bot:

* `src/state/pipelineState.ts` — keyed pipeline state store (get/set), with the
  Set↔Array conversion performed at the storage boundary;
* `src/views/pipelineMessage.ts` — the pure renderer
  `buildPipelineMessageBlocks(pipelineData, expandedStages)`;
* `src/webhooks/gitlab.ts` — the webhook handler for `pipeline` and `build`
  events (merge logic + dispatch);
* `src/listeners/slackInteractions.ts` — the action handlers
  `toggleStageVisibility` and `showErrorLogAction`.

JavaScript `Set` values are modelled as insertion-ordered duplicate-free
`List String`; the Slack block array is modelled by the inductive `Block`;
Slack / store I/O is modelled by injecting each call's outcome (`Except`)
and recording the calls the handler issues.
-/

/-- A GitLab build (job) as carried in a pipeline event's `builds` array:
numeric id, name, owning stage, and status string. -/
structure Build where
  id : Nat
  name : String
  stage : String
  status : String
deriving DecidableEq, Repr

/-- `event.object_attributes`: pipeline id, git ref, and the declared stage
order. -/
structure ObjectAttributes where
  id : Nat
  ref : String
  stages : List String
deriving DecidableEq, Repr

/-- `event.project`. -/
structure Project where
  name : String
deriving DecidableEq, Repr

/-- `commit.author`. -/
structure Author where
  name : String
deriving DecidableEq, Repr

/-- `event.commit`. -/
structure Commit where
  id : String
  url : String
  author : Author
deriving DecidableEq, Repr

/-- A pipeline-level event payload (also stored as `lastPipelineData`): the
full snapshot the renderer consumes. -/
structure PipelineData where
  object_attributes : ObjectAttributes
  project : Project
  commit : Commit
  builds : List Build
deriving DecidableEq, Repr

/-- `PipelineMessage` from `src/state/pipelineState.ts`: the per-pipeline
render state. `expandedStages` is a JavaScript `Set<string>`, modelled as an
insertion-ordered list without duplicates. -/
structure PipelineMessage where
  ts : String
  channel : String
  expandedStages : List String
  lastPipelineData : PipelineData
deriving DecidableEq, Repr

/-! ## JavaScript `Set` model

A JS `Set` iterates its elements in insertion order and never holds
duplicates. `add` appends when absent, `delete` removes the entry,
`new Set(array)` inserts the array's elements left to right keeping first
occurrences, `Array.from(set)` lists the elements in insertion order. -/

/-- `set.add(x)`: append `x` unless already present (JS `Set.prototype.add`). -/
def jsSetAdd (s : List String) (x : String) : List String :=
  if x ∈ s then s else s ++ [x]

/-- `set.delete(x)`: remove the entry equal to `x` (JS `Set.prototype.delete`;
on a duplicate-free list this is the filter keeping everything else). -/
def jsSetDelete (s : List String) (x : String) : List String :=
  s.filter (fun y => y ≠ x)

/-- `Array.from(set)` (`src/state/pipelineState.ts`, `setPipelineState`):
the set's elements in insertion order. -/
def jsArrayFrom (s : List String) : List String := s

/-- `new Set(arr)` (`src/state/pipelineState.ts`, `getPipelineState`):
insert left to right, keeping the first occurrence of each element. -/
def jsNewSet (arr : List String) : List String :=
  arr.foldl (fun acc x => if x ∈ acc then acc else acc ++ [x]) []

/-- The document shape actually written to Firestore
(`FirestorePipelineMessage` in `src/state/pipelineState.ts`): `expandedStages`
serialized as an array. -/
structure FirestorePipelineMessage where
  ts : String
  channel : String
  expandedStages : List String
  lastPipelineData : PipelineData
deriving DecidableEq, Repr

/-- The conversion `setPipelineState` performs before writing:
`expandedStages: Array.from(message.expandedStages)`. -/
def toFirestore (m : PipelineMessage) : FirestorePipelineMessage :=
  { ts := m.ts, channel := m.channel,
    expandedStages := jsArrayFrom m.expandedStages,
    lastPipelineData := m.lastPipelineData }

/-- The conversion `getPipelineState` performs after reading:
`expandedStages: new Set(data.expandedStages)`. -/
def fromFirestore (d : FirestorePipelineMessage) : PipelineMessage :=
  { ts := d.ts, channel := d.channel,
    expandedStages := jsNewSet d.expandedStages,
    lastPipelineData := d.lastPipelineData }

/-! ## Renderer (`src/views/pipelineMessage.ts`) -/

/-- `mapStatusToEmoji` from `src/views/pipelineMessage.ts`. -/
def mapStatusToEmoji (status : String) : String :=
  if status = "success" then "✅"
  else if status = "failed" then "❌"
  else if status = "running" then "⚙️"
  else if status = "pending" then "⏳"
  else if status = "created" then "📝"
  else "❓"

/-- `getStageStatus` from `src/views/pipelineMessage.ts`: fixed precedence
over the stage's builds. -/
def getStageStatus (builds : List Build) : String :=
  if builds.any (fun b => b.status == "failed") then "failed"
  else if builds.all (fun b => b.status == "success") then "success"
  else if builds.all (fun b => b.status == "created" || b.status == "pending") then "pending"
  else "running"

/-- A Slack button element: `text.text`, optional `style`, `action_id`,
`value` (the constant `text.type = "plain_text"`, `emoji: true` fields are
omitted as they never vary). -/
structure Button where
  text : String
  style : Option String
  action_id : String
  value : String
deriving DecidableEq, Repr

/-- A Slack `KnownBlock` as produced by this code base.  A `section` carrying
`text` (and an optional button accessory) and a `section` carrying `fields`
are distinguished by constructor, mirroring the two distinct object shapes
built in `pipelineMessage.ts`; each field is its mrkdwn text (the constant
`type: "mrkdwn"` tag is omitted). -/
inductive Block where
  | header (text : String)
  | context (text : String)
  | divider
  | sectionText (text : String) (accessory : Option Button)
  | sectionFields (fields : List String)
  | actions (elements : List Button)
deriving DecidableEq, Repr

/-- `JSON.stringify({ stageName, pipelineId })` — the toggle button's value
payload (modulo JSON escaping of special characters inside `stageName`,
which no claim depends on). -/
def stringifyToggleValue (stageName : String) (pipelineId : Nat) : String :=
  "\x7b\"stageName\":\"" ++ stageName ++ "\",\"pipelineId\":" ++ toString pipelineId ++ "\x7d"

/-- One step of the `buildsByStage` construction: JS
`if (!map.has(b.stage)) map.set(b.stage, []); map.get(b.stage).push(b)`,
on an insertion-ordered association list. -/
def addToStage (m : List (String × List Build)) (b : Build) : List (String × List Build) :=
  if m.any (fun p => p.1 == b.stage) then
    m.map (fun p => if p.1 == b.stage then (p.1, p.2 ++ [b]) else p)
  else m ++ [(b.stage, [b])]

/-- The `buildsByStage` map of `buildPipelineMessageBlocks`: builds grouped by
their `stage` field, preserving per-stage arrival order. -/
def buildsByStage (builds : List Build) : List (String × List Build) :=
  builds.foldl addToStage []

/-- `buildsByStage.get(stageName)`, with a missing key read as the empty list
(the code guards with `!stageBuilds || stageBuilds.length === 0`). -/
def lookupStage (m : List (String × List Build)) (stageName : String) : List Build :=
  match m.find? (fun p => p.1 == stageName) with
  | some p => p.2
  | none => []

/-- Structural worker for `chunkList`: one fuel unit per loop iteration
(the fuel `l.length` suffices since every iteration on a non-empty list
consumes at least one element for `n ≥ 1`, the only instantiations). -/
def chunkAux {α : Type} (n : Nat) : Nat → List α → List (List α)
  | _, [] => []
  | 0, _ => []
  | fuel + 1, l => l.take n :: chunkAux n fuel (l.drop n)

/-- The chunking loop `for (let i = 0; i < xs.length; i += n) push(xs.slice(i, i + n))`
(the code only instantiates `n = 10` and `n = 5`). -/
def chunkList {α : Type} (n : Nat) (l : List α) : List (List α) :=
  chunkAux n l.length l

/-- The detail row for one build inside an expanded stage:
`${emoji} *${name}:* ${status}`. -/
def jobField (b : Build) : String :=
  mapStatusToEmoji b.status ++ " *" ++ b.name ++ ":* " ++ b.status

/-- The blocks the stage loop of `buildPipelineMessageBlocks` pushes for one
declared stage name: a "not started" line when no builds exist for the stage,
otherwise a status line with its Show/Hide toggle button, followed — when the
stage is expanded — by the job detail rows batched 10 fields per block. -/
def stageGroup (pipelineData : PipelineData) (expandedStages : List String)
    (stageName : String) : List Block :=
  let stageBuilds := lookupStage (buildsByStage pipelineData.builds) stageName
  if stageBuilds.isEmpty then
    [Block.sectionText ("⏳ *" ++ stageName ++ "*") none]
  else
    let stageEmoji := mapStatusToEmoji (getStageStatus stageBuilds)
    let isExpanded := expandedStages.contains stageName
    let button : Button :=
      { text := if isExpanded then "Hide" else "Show", style := none,
        action_id := if isExpanded then "hide_stage" else "show_stage",
        value := stringifyToggleValue stageName pipelineData.object_attributes.id }
    let stageLine := Block.sectionText (stageEmoji ++ " *" ++ stageName ++ "*") (some button)
    if isExpanded then
      stageLine :: (chunkList 10 (stageBuilds.map jobField)).map Block.sectionFields
    else
      [stageLine]

/-- The error-log button for one failed build:
`{ text: Log: name, style: danger, action_id: show_error_log, value: String(id) }`. -/
def errorButton (b : Build) : Button :=
  { text := "Log: " ++ b.name, style := some "danger",
    action_id := "show_error_log", value := toString b.id }

/-- The trailing blocks of `buildPipelineMessageBlocks`: when any build has
failed, a divider followed by the error-log buttons batched 5 per actions
block. -/
def errorButtonBlocks (builds : List Build) : List Block :=
  let failedBuilds := builds.filter (fun b => b.status == "failed")
  if failedBuilds.isEmpty then []
  else
    Block.divider :: (chunkList 5 (failedBuilds.map errorButton)).map Block.actions

/-- `buildPipelineMessageBlocks` from `src/views/pipelineMessage.ts`: header,
context line, divider, one group per declared stage in declared order, then
the error-log action blocks. -/
def buildPipelineMessageBlocks (pipelineData : PipelineData)
    (expandedStages : List String) : List Block :=
  let headerBlock := Block.header ("Deployment for " ++ pipelineData.project.name)
  let contextBlock := Block.context
    ("*Branch:* " ++ pipelineData.object_attributes.ref ++ " | *Commit:* <"
      ++ pipelineData.commit.url ++ "|" ++ pipelineData.commit.id.take 8
      ++ "> by " ++ pipelineData.commit.author.name)
  [headerBlock, contextBlock, Block.divider]
    ++ pipelineData.object_attributes.stages.flatMap (stageGroup pipelineData expandedStages)
    ++ errorButtonBlocks pipelineData.builds

/-! ## Webhook handler (`src/webhooks/gitlab.ts`)

The state store is the keyed get/put contract of `pipelineState.ts`:
a mapping from pipeline id to `PipelineMessage | absent`.  The Slack calls
`chat.postMessage` / `chat.update` are modelled by injecting each call's
outcome (`Except String …`, an exception being the `error` case) and by
recording the calls the handler issues, in order. -/

/-- The keyed store: `get(pipelineId) → PipelineMessage | absent`. -/
def Store : Type := Nat → Option PipelineMessage

/-- `setPipelineState(pipelineId, message)` against the keyed contract. -/
def setState (store : Store) (pipelineId : Nat) (m : PipelineMessage) : Store :=
  fun k => if k = pipelineId then some m else store k

/-- The result object of `chat.postMessage` as inspected by the handler:
`result.ok && result.ts && result.channel`. -/
structure PostResult where
  ok : Bool
  ts : Option String
  channel : Option String
deriving DecidableEq, Repr

/-- One outbound Dispatch Adapter call issued by a handler. -/
inductive DispatchCall where
  | postMessage (channel : String) (blocks : List Block) (text : String)
  | updateMessage (channel : String) (ts : String) (blocks : List Block) (text : Option String)
deriving DecidableEq, Repr

/-- An inbound webhook event, discriminated on `object_kind`: a `pipeline`
event carries the full snapshot, a `build` event carries
`(pipeline_id, build_id, build_status)`, and any other kind falls through
both branches. -/
inductive GitlabEvent where
  | pipeline (event : PipelineData)
  | build (pipeline_id : Nat) (build_id : Nat) (build_status : String)
  | other (kind : String)
deriving DecidableEq, Repr

/-- The `builds.find(b => b.id === buildId)` + `buildToUpdate.status = event.build_status`
mutation: overwrite the status of the first build whose id matches; leave the
list unchanged when no id matches. -/
def updateBuildStatus (builds : List Build) (buildId : Nat) (newStatus : String) : List Build :=
  match builds with
  | [] => []
  | b :: rest =>
    if b.id = buildId then { b with status := newStatus } :: rest
    else b :: updateBuildStatus rest buildId newStatus

/-- The outcome of one webhook request: the HTTP status the router responds
with, the store afterwards, and the dispatch calls issued. -/
structure StepOut where
  status : Nat
  store : Store
  calls : List DispatchCall

/-- The POST `/gitlab` handler of `src/webhooks/gitlab.ts`, after the token
check has passed.  `envChannel` is `SLACK_CHANNEL_ID`; `postOutcome` /
`updateOutcome` inject the outcome of the `chat.postMessage` / `chat.update`
call the handler would issue (an `error` models a thrown exception, caught by
the surrounding try/catch).  The handler always answers 200. -/
def webhookStep (envChannel : String) (store : Store) (event : GitlabEvent)
    (postOutcome : Except String PostResult) (updateOutcome : Except String Unit) :
    StepOut :=
  match event with
  | .pipeline ev =>
    let pipelineId := ev.object_attributes.id
    let existingMessage := store pipelineId
    let blocks := buildPipelineMessageBlocks ev
      (match existingMessage with | some m => m.expandedStages | none => [])
    match existingMessage with
    | some existing =>
      let call := DispatchCall.updateMessage existing.channel existing.ts blocks
        (some "Pipeline status updated.")
      match updateOutcome with
      | .error _ => ⟨200, store, [call]⟩
      | .ok _ =>
        ⟨200, setState store pipelineId { existing with lastPipelineData := ev }, [call]⟩
    | none =>
      let call := DispatchCall.postMessage envChannel blocks "New pipeline started."
      match postOutcome with
      | .error _ => ⟨200, store, [call]⟩
      | .ok result =>
        if result.ok then
          match result.ts, result.channel with
          | some ts, some channel =>
            ⟨200, setState store pipelineId
              { ts := ts, channel := channel, expandedStages := [],
                lastPipelineData := ev }, [call]⟩
          | _, _ => ⟨200, store, [call]⟩
        else ⟨200, store, [call]⟩
  | .build pipelineId buildId buildStatus =>
    match store pipelineId with
    | none => ⟨200, store, []⟩
    | some currentState =>
      let newState := { currentState with
        lastPipelineData := { currentState.lastPipelineData with
          builds := updateBuildStatus currentState.lastPipelineData.builds buildId buildStatus } }
      let store2 := setState store pipelineId newState
      let blocks := buildPipelineMessageBlocks newState.lastPipelineData newState.expandedStages
      let call := DispatchCall.updateMessage newState.channel newState.ts blocks
        (some "Pipeline status updated.")
      match updateOutcome with
      | .error _ => ⟨200, store2, [call]⟩
      | .ok _ => ⟨200, store2, [call]⟩
  | .other _ => ⟨200, store, []⟩

/-! ## Action handlers (`src/listeners/slackInteractions.ts`) -/

/-- `toggleStageVisibility`, after `ack()` and after `JSON.parse(action.value)`
has yielded `(stageName, pipelineId)`.  `bodyChannel` / `bodyTs` are
`body.channel.id` / `body.message.ts` from the interaction payload.  When no
state is stored for the pipeline id the handler returns before any store
write or message update. -/
def toggleStageVisibility (store : Store) (stageName : String) (pipelineId : Nat)
    (showStage : Bool) (bodyChannel : String) (bodyTs : String) :
    Store × List DispatchCall :=
  match store pipelineId with
  | none => (store, [])
  | some currentState =>
    let newExpanded :=
      if showStage then jsSetAdd currentState.expandedStages stageName
      else jsSetDelete currentState.expandedStages stageName
    let newState := { currentState with expandedStages := newExpanded }
    let blocks := buildPipelineMessageBlocks newState.lastPipelineData newState.expandedStages
    (setState store pipelineId newState,
      [DispatchCall.updateMessage bodyChannel bodyTs blocks none])

/-- The block predicate inside `showErrorLogAction`'s `findIndex`:
`block.type === 'actions' && block.elements.some(el =>
  el.action_id === 'show_error_log' && el.value === action.value)`. -/
def matchesErrorControl (actionValue : String) (block : Block) : Bool :=
  match block with
  | .actions elements =>
    elements.any (fun el => el.action_id == "show_error_log" && el.value == actionValue)
  | _ => false

/-- JS `Array.prototype.findIndex`, with the miss (`-1`) modelled as `none`. -/
def findIndex {α : Type} (p : α → Bool) : List α → Option Nat
  | [] => none
  | a :: as => if p a then some 0 else (findIndex p as).map (fun i => i + 1)

/-- `showErrorLogAction`, after `ack()`: `errorLog` is the text returned by
`getJobLog`; `originalBlocks` is the block sequence delivered with the
interaction (`body.message.blocks`).  `findIndex` over the blocks, then —
when the index is not `-1` — `splice(actionBlockIndex, 1, errorBlock)`:
replacement of the found block in place. -/
def showErrorLogAction (actionValue : String) (errorLog : String)
    (originalBlocks : List Block) : List Block :=
  let errorBlock := Block.sectionText errorLog none
  match findIndex (matchesErrorControl actionValue) originalBlocks with
  | some actionBlockIndex => originalBlocks.set actionBlockIndex errorBlock
  | none => originalBlocks

/-! ## Derived observers and sample data used by the verification -/

/-- Recognizes the stage lines among rendered blocks: text-carrying section
blocks are produced by the stage loop and nowhere else (job-detail groups are
fields-carrying sections, a different shape). -/
def isStageLine : Block → Bool
  | .sectionText _ _ => true
  | _ => false

/-- The single stage line the stage loop emits for one declared stage name
(the head of `stageGroup`, without the detail rows). -/
def stageLineBlock (pipelineData : PipelineData) (expandedStages : List String)
    (stageName : String) : Block :=
  let stageBuilds := lookupStage (buildsByStage pipelineData.builds) stageName
  if stageBuilds.isEmpty then
    Block.sectionText ("⏳ *" ++ stageName ++ "*") none
  else
    let stageEmoji := mapStatusToEmoji (getStageStatus stageBuilds)
    let isExpanded := expandedStages.contains stageName
    Block.sectionText (stageEmoji ++ " *" ++ stageName ++ "*")
      (some { text := if isExpanded then "Hide" else "Show", style := none,
              action_id := if isExpanded then "hide_stage" else "show_stage",
              value := stringifyToggleValue stageName pipelineData.object_attributes.id })

/-- The transport ceilings: a fields-carrying section block holds at most 10
fields, an actions block at most 5 elements. -/
def blockSizeOk : Block → Prop
  | .sectionFields fields => fields.length ≤ 10
  | .actions elements => elements.length ≤ 5
  | _ => True

/-- Projects a job-detail block to its field count. -/
def detailFieldCount : Block → Option Nat
  | .sectionFields fields => some fields.length
  | _ => none

/-- A concrete build used by the sample snapshots. -/
def sampleBuild (i : Nat) (status : String) (stage : String) : Build :=
  { id := i, name := "job" ++ toString i, stage := stage, status := status }

/-- A snapshot whose single stage `test` holds 23 jobs — the chunking sample
of the specification. -/
def pdTwentyThree : PipelineData :=
  { object_attributes := { id := 7, ref := "main", stages := ["test"] },
    project := { name := "proj" },
    commit := { id := "abcdef1234", url := "http://c", author := { name := "a" } },
    builds := (List.range 23).map (fun i => sampleBuild i "success" "test") }

/-- The chunking sample with its builds in reversed arrival order. -/
def pdTwentyThreeRev : PipelineData :=
  { pdTwentyThree with builds := pdTwentyThree.builds.reverse }

/-- A small snapshot with one running build in stage `build`. -/
def pdToggleCex : PipelineData :=
  { object_attributes := { id := 7, ref := "main", stages := ["build"] },
    project := { name := "proj" },
    commit := { id := "abcdef1234", url := "http://c", author := { name := "a" } },
    builds := [sampleBuild 1 "running" "build"] }

/-- A stored state whose expanded-stage set already contains `build`. -/
def stToggleCex : PipelineMessage :=
  { ts := "111.222", channel := "C1", expandedStages := ["build"],
    lastPipelineData := pdToggleCex }

/-- A store holding `stToggleCex` under pipeline id 7. -/
def storeToggleCex : Store :=
  fun k => if k = 7 then some stToggleCex else none

/-- The store with no entries. -/
def emptyStore : Store := fun _ => none

/-- The sample state with no expanded stages. -/
def stCollapsed : PipelineMessage :=
  { ts := "111.222", channel := "C1", expandedStages := [],
    lastPipelineData := pdToggleCex }

/-- A store holding `stCollapsed` under pipeline id 7. -/
def storeCollapsed : Store :=
  fun k => if k = 7 then some stCollapsed else none

/-- A concrete rendered message holding two diagnostic action groups, used to
exercise the splice-and-replace resolver. -/
def blocksPatchSample : List Block :=
  [Block.header "Deployment for proj",
   Block.divider,
   Block.actions [errorButton (sampleBuild 1 "failed" "t"),
                  errorButton (sampleBuild 2 "failed" "t")],
   Block.actions [errorButton (sampleBuild 3 "failed" "t")]]

/-! ## Helper lemmas -/

/-- Every chunk the batching loop produces has at most `n` entries. -/
theorem chunkAux_mem_length {α : Type} (n : Nat) :
    ∀ (fuel : Nat) (l : List α), ∀ c ∈ chunkAux n fuel l, c.length ≤ n := by
  intro fuel
  induction fuel with
  | zero =>
    intro l c hc
    cases l <;> simp [chunkAux] at hc
  | succ f ih =>
    intro l c hc
    cases l with
    | nil => simp [chunkAux] at hc
    | cons a as =>
      simp only [chunkAux, List.mem_cons] at hc
      rcases hc with h | h
      · subst h; exact List.length_take_le n _
      · exact ih _ _ h

/-- Every chunk of `chunkList n l` has at most `n` entries. -/
theorem chunkList_mem_length {α : Type} (n : Nat) (l : List α) :
    ∀ c ∈ chunkList n l, c.length ≤ n :=
  chunkAux_mem_length n l.length l

/-- Membership after `new Set(arr)`: an element is in the deduplicated set
iff it is in the array. -/
theorem mem_jsNewSet (arr : List String) (x : String) :
    x ∈ jsNewSet arr ↔ x ∈ arr := by
  have general : ∀ (l acc : List String),
      (x ∈ l.foldl (fun acc y => if y ∈ acc then acc else acc ++ [y]) acc ↔ x ∈ acc ∨ x ∈ l) := by
    intro l
    induction l with
    | nil => intro acc; simp
    | cons a as ih =>
      intro acc
      simp only [List.foldl_cons]
      rw [ih]
      by_cases h : a ∈ acc
      · rw [if_pos h]
        constructor
        · rintro (hx | hx)
          · exact Or.inl hx
          · exact Or.inr (List.mem_cons_of_mem a hx)
        · rintro (hx | hx)
          · exact Or.inl hx
          · rcases List.mem_cons.mp hx with rfl | hx
            · exact Or.inl h
            · exact Or.inr hx
      · rw [if_neg h]
        constructor
        · rintro (hx | hx)
          · rcases List.mem_append.mp hx with hx | hx
            · exact Or.inl hx
            · exact Or.inr (List.mem_cons.mpr (Or.inl (List.mem_singleton.mp hx)))
          · exact Or.inr (List.mem_cons_of_mem a hx)
        · rintro (hx | hx)
          · exact Or.inl (List.mem_append.mpr (Or.inl hx))
          · rcases List.mem_cons.mp hx with rfl | hx
            · exact Or.inl (List.mem_append.mpr (Or.inr (List.mem_singleton.mpr rfl)))
            · exact Or.inr hx
  rw [jsNewSet, general]
  simp

/-- Deleting a freshly added absent element returns the original set. -/
theorem jsSetDelete_jsSetAdd (s : List String) (x : String) (h : x ∉ s) :
    jsSetDelete (jsSetAdd s x) x = s := by
  unfold jsSetAdd jsSetDelete
  rw [if_neg h, List.filter_append]
  have h1 : s.filter (fun y => y ≠ x) = s :=
    List.filter_eq_self.mpr (fun a ha => by
      simp only [ne_eq, decide_eq_true_eq]
      exact fun he => h (he ▸ ha))
  have h2 : [x].filter (fun y => y ≠ x) = [] := by simp
  rw [h1, h2, List.append_nil]

/-! ## Claim C4 — stage status precedence -/

/-- C4: for every non-empty list of jobs in a stage, the derived stage status
follows the fixed precedence: any job `failed` ⇒ `failed`; else all `success`
⇒ `success`; else all in \x7bcreated, pending\x7d ⇒ `pending`; else `running`. -/
theorem getStageStatus_precedence (builds : List Build) (_hne : builds ≠ []) :
    ((∃ b ∈ builds, b.status = "failed") → getStageStatus builds = "failed") ∧
    ((¬ ∃ b ∈ builds, b.status = "failed") →
      (∀ b ∈ builds, b.status = "success") → getStageStatus builds = "success") ∧
    ((¬ ∃ b ∈ builds, b.status = "failed") →
      (¬ ∀ b ∈ builds, b.status = "success") →
      (∀ b ∈ builds, b.status = "created" ∨ b.status = "pending") →
      getStageStatus builds = "pending") ∧
    ((¬ ∃ b ∈ builds, b.status = "failed") →
      (¬ ∀ b ∈ builds, b.status = "success") →
      (¬ ∀ b ∈ builds, b.status = "created" ∨ b.status = "pending") →
      getStageStatus builds = "running") := by
  have hfail : (builds.any fun b => b.status == "failed") = true
      ↔ ∃ b ∈ builds, b.status = "failed" := by
    simp [List.any_eq_true]
  have hsucc : (builds.all fun b => b.status == "success") = true
      ↔ ∀ b ∈ builds, b.status = "success" := by
    simp [List.all_eq_true]
  have hpend : (builds.all fun b => b.status == "created" || b.status == "pending") = true
      ↔ ∀ b ∈ builds, b.status = "created" ∨ b.status = "pending" := by
    simp [List.all_eq_true]
  refine ⟨fun h => ?_, fun h1 h2 => ?_, fun h1 h2 h3 => ?_, fun h1 h2 h3 => ?_⟩ <;>
    unfold getStageStatus
  · rw [if_pos (hfail.mpr h)]
  · rw [if_neg (fun hh => h1 (hfail.mp hh)), if_pos (hsucc.mpr h2)]
  · rw [if_neg (fun hh => h1 (hfail.mp hh)), if_neg (fun hh => h2 (hsucc.mp hh)),
      if_pos (hpend.mpr h3)]
  · rw [if_neg (fun hh => h1 (hfail.mp hh)), if_neg (fun hh => h2 (hsucc.mp hh)),
      if_neg (fun hh => h3 (hpend.mp hh))]

/-- Witness for C4 at a concrete two-job stage containing a failure. -/
theorem getStageStatus_precedence_witness :
    getStageStatus [sampleBuild 1 "failed" "s", sampleBuild 2 "success" "s"] = "failed" :=
  (getStageStatus_precedence [sampleBuild 1 "failed" "s", sampleBuild 2 "success" "s"]
      (by decide)).1
    ⟨sampleBuild 1 "failed" "s", by decide, rfl⟩

/-! ## Claim C8 — storage round-trip of the expanded-stage set -/

/-- C8: writing a pipeline state to the store (Set serialized as an array)
and reading it back (array deserialized as a Set) is the identity on
set membership, and preserves the other fields. -/
theorem storage_roundtrip_preserves_state (m : PipelineMessage) (x : String) :
    (x ∈ (fromFirestore (toFirestore m)).expandedStages ↔ x ∈ m.expandedStages) ∧
    (fromFirestore (toFirestore m)).ts = m.ts ∧
    (fromFirestore (toFirestore m)).channel = m.channel ∧
    (fromFirestore (toFirestore m)).lastPipelineData = m.lastPipelineData :=
  ⟨by simp only [fromFirestore, toFirestore, jsArrayFrom, mem_jsNewSet], rfl, rfl, rfl⟩

/-- Witness for C8 at a concrete stored state. -/
theorem storage_roundtrip_witness :
    "build" ∈ (fromFirestore (toFirestore stToggleCex)).expandedStages
      ↔ "build" ∈ stToggleCex.expandedStages :=
  (storage_roundtrip_preserves_state stToggleCex "build").1

/-! ## Claim C10 — toggle on a pipeline id with no stored state -/

/-- C10: a toggle-show or toggle-hide whose decoded pipeline id has no stored
state performs no store write and no message update: the handler returns the
store unchanged and issues no dispatch call. -/
theorem toggle_no_state_noop (store : Store) (stageName : String) (pipelineId : Nat)
    (showStage : Bool) (bodyChannel bodyTs : String)
    (h : store pipelineId = none) :
    toggleStageVisibility store stageName pipelineId showStage bodyChannel bodyTs
      = (store, []) := by
  unfold toggleStageVisibility
  rw [h]

/-- Witness for C10: pipeline id 8 has no stored state in the sample store. -/
theorem toggle_no_state_noop_witness :
    toggleStageVisibility storeToggleCex "build" 8 true "C1" "1.2"
      = (storeToggleCex, []) :=
  toggle_no_state_noop storeToggleCex "build" 8 true "C1" "1.2" (by decide)

/-! ## Claim C9 — the webhook handler always acknowledges with 200 -/

/-- C9: for every authenticated inbound webhook event, the handler answers
200 whatever the outcome of processing — including a thrown post or update
call — and an event kind other than pipeline/build is ignored (no state
change, no dispatch) while still being acknowledged. -/
theorem webhook_always_acknowledges (envChannel : String) (store : Store)
    (event : GitlabEvent) (po : Except String PostResult) (uo : Except String Unit) :
    (webhookStep envChannel store event po uo).status = 200 ∧
    (∀ kind, event = GitlabEvent.other kind →
      (webhookStep envChannel store event po uo).store = store ∧
      (webhookStep envChannel store event po uo).calls = []) := by
  constructor
  · cases event <;> simp only [webhookStep] <;> (repeat' split) <;> rfl
  · intro kind hk
    subst hk
    exact ⟨rfl, rfl⟩

/-- Witness for C9: a thrown update call on an unrecognized event kind is
still answered 200. -/
theorem webhook_always_acknowledges_witness :
    (webhookStep "CHAN" storeToggleCex (GitlabEvent.other "merge_request")
        (Except.error "boom") (Except.error "boom")).status = 200 ∧
    (webhookStep "CHAN" storeToggleCex (GitlabEvent.other "merge_request")
        (Except.error "boom") (Except.error "boom")).calls = [] :=
  ⟨(webhook_always_acknowledges "CHAN" storeToggleCex (GitlabEvent.other "merge_request")
      (Except.error "boom") (Except.error "boom")).1,
   ((webhook_always_acknowledges "CHAN" storeToggleCex (GitlabEvent.other "merge_request")
      (Except.error "boom") (Except.error "boom")).2 "merge_request" rfl).2⟩

/-! ## Claim C1 — idempotent creation -/

/-- Creation path of the pipeline branch: with no existing state and a
successful post, the handler issues exactly one create and stores the new
message reference with an empty expanded-stage set. -/
theorem webhookStep_create (envChannel : String) (store : Store) (e : PipelineData)
    (ts channel : String) (uo : Except String Unit)
    (h : store e.object_attributes.id = none) :
    webhookStep envChannel store (GitlabEvent.pipeline e)
        (Except.ok { ok := true, ts := some ts, channel := some channel }) uo
      = ⟨200, setState store e.object_attributes.id
          { ts := ts, channel := channel, expandedStages := [], lastPipelineData := e },
          [DispatchCall.postMessage envChannel (buildPipelineMessageBlocks e [])
            "New pipeline started."]⟩ := by
  simp only [webhookStep, h]
  rw [if_pos trivial]

/-- Update path of the pipeline branch: with existing state, the handler
issues exactly one update of the stored message reference, whatever the
update call's outcome. -/
theorem webhookStep_update_calls (envChannel : String) (store : Store) (e : PipelineData)
    (m : PipelineMessage) (po : Except String PostResult) (uo : Except String Unit)
    (h : store e.object_attributes.id = some m) :
    (webhookStep envChannel store (GitlabEvent.pipeline e) po uo).calls
      = [DispatchCall.updateMessage m.channel m.ts
          (buildPipelineMessageBlocks e m.expandedStages) (some "Pipeline status updated.")] := by
  simp only [webhookStep, h]
  cases uo <;> rfl

/-- C1: for a pipeline id with no existing state, two pipeline-level events
in sequence result in exactly one created message — stored with an empty
expanded-stage set — followed by exactly one update of that same message,
never two created messages. -/
theorem idempotent_creation (envChannel : String) (store : Store) (pipelineId : Nat)
    (e1 e2 : PipelineData) (ts channel : String)
    (po2 : Except String PostResult) (uo1 uo2 : Except String Unit)
    (h0 : store pipelineId = none)
    (h1 : e1.object_attributes.id = pipelineId)
    (h2 : e2.object_attributes.id = pipelineId) :
    (webhookStep envChannel store (GitlabEvent.pipeline e1)
        (Except.ok { ok := true, ts := some ts, channel := some channel }) uo1).calls
      = [DispatchCall.postMessage envChannel (buildPipelineMessageBlocks e1 [])
          "New pipeline started."] ∧
    (webhookStep envChannel store (GitlabEvent.pipeline e1)
        (Except.ok { ok := true, ts := some ts, channel := some channel }) uo1).store
        pipelineId
      = some { ts := ts, channel := channel, expandedStages := [],
               lastPipelineData := e1 } ∧
    (webhookStep envChannel
        (webhookStep envChannel store (GitlabEvent.pipeline e1)
          (Except.ok { ok := true, ts := some ts, channel := some channel }) uo1).store
        (GitlabEvent.pipeline e2) po2 uo2).calls
      = [DispatchCall.updateMessage channel ts (buildPipelineMessageBlocks e2 [])
          (some "Pipeline status updated.")] := by
  have h0e : store e1.object_attributes.id = none := by rw [h1]; exact h0
  have hs1 := webhookStep_create envChannel store e1 ts channel uo1 h0e
  refine ⟨?_, ?_, ?_⟩
  · rw [hs1]
  · rw [hs1]; simp [setState, h1]
  · rw [hs1]
    exact webhookStep_update_calls envChannel _ e2
      { ts := ts, channel := channel, expandedStages := [], lastPipelineData := e1 }
      po2 uo2 (by simp [setState, h1, h2])

/-- Witness for C1 at a concrete store and pipeline event. -/
theorem idempotent_creation_witness :
    (webhookStep "CHAN" emptyStore (GitlabEvent.pipeline pdToggleCex)
        (Except.ok { ok := true, ts := some "1.1", channel := some "CHAN" })
        (Except.ok ())).calls
      = [DispatchCall.postMessage "CHAN" (buildPipelineMessageBlocks pdToggleCex [])
          "New pipeline started."] ∧
    (webhookStep "CHAN"
        (webhookStep "CHAN" emptyStore (GitlabEvent.pipeline pdToggleCex)
          (Except.ok { ok := true, ts := some "1.1", channel := some "CHAN" })
          (Except.ok ())).store
        (GitlabEvent.pipeline pdToggleCex) (Except.ok { ok := true, ts := none, channel := none })
        (Except.ok ())).calls
      = [DispatchCall.updateMessage "CHAN" "1.1" (buildPipelineMessageBlocks pdToggleCex [])
          (some "Pipeline status updated.")] :=
  ⟨(idempotent_creation "CHAN" emptyStore 7 pdToggleCex pdToggleCex "1.1" "CHAN"
      (Except.ok { ok := true, ts := none, channel := none }) (Except.ok ()) (Except.ok ())
      rfl rfl rfl).1,
   (idempotent_creation "CHAN" emptyStore 7 pdToggleCex pdToggleCex "1.1" "CHAN"
      (Except.ok { ok := true, ts := none, channel := none }) (Except.ok ()) (Except.ok ())
      rfl rfl rfl).2.2⟩

/-! ## Claim C3 — job events never change the set of job ids -/

/-- The status patch preserves the list of job ids entry for entry. -/
theorem updateBuildStatus_map_id (builds : List Build) (buildId : Nat) (s : String) :
    (updateBuildStatus builds buildId s).map (fun b => b.id)
      = builds.map (fun b => b.id) := by
  induction builds with
  | nil => rfl
  | cons b rest ih =>
    unfold updateBuildStatus
    by_cases h : b.id = buildId
    · rw [if_pos h]; rfl
    · rw [if_neg h]; simp [ih]

/-- The status patch relates input and output builds entrywise: id, name and
stage are kept; a status change can only happen on an entry whose id is the
patched one, and then to the incoming status. -/
theorem updateBuildStatus_entrywise (builds : List Build) (buildId : Nat) (s : String) :
    List.Forall₂ (fun b b2 => b2.id = b.id ∧ b2.name = b.name ∧ b2.stage = b.stage ∧
        (b2.status = b.status ∨ (b.id = buildId ∧ b2.status = s)))
      builds (updateBuildStatus builds buildId s) := by
  induction builds with
  | nil => exact List.Forall₂.nil
  | cons b rest ih =>
    unfold updateBuildStatus
    by_cases h : b.id = buildId
    · rw [if_pos h]
      exact List.Forall₂.cons ⟨rfl, rfl, rfl, Or.inr ⟨h, rfl⟩⟩
        (List.forall₂_same.mpr (fun x _ => ⟨rfl, rfl, rfl, Or.inl rfl⟩))
    · rw [if_neg h]
      exact List.Forall₂.cons ⟨rfl, rfl, rfl, Or.inl rfl⟩ ih

/-- A job id absent from the snapshot leaves the builds list unchanged. -/
theorem updateBuildStatus_absent (builds : List Build) (buildId : Nat) (s : String)
    (h : buildId ∉ builds.map (fun b => b.id)) :
    updateBuildStatus builds buildId s = builds := by
  induction builds with
  | nil => rfl
  | cons b rest ih =>
    simp only [List.map_cons, List.mem_cons] at h
    push_neg at h
    unfold updateBuildStatus
    rw [if_neg (fun he => h.1 he.symm), ih h.2]

/-- C3: a job-level event never changes the set of job ids in the stored
snapshot — a matching job has only its status overwritten, an absent job id
leaves the state (hence the rendering and the issued update) unchanged, and
an event for a pipeline id with no stored state creates no state. -/
theorem job_event_snapshot_invariant (envChannel : String) (store : Store)
    (pipelineId buildId : Nat) (buildStatus : String)
    (po : Except String PostResult) (uo : Except String Unit) :
    (∀ st, store pipelineId = some st →
      (webhookStep envChannel store (GitlabEvent.build pipelineId buildId buildStatus)
          po uo).store pipelineId
        = some { st with lastPipelineData := { st.lastPipelineData with
            builds := updateBuildStatus st.lastPipelineData.builds buildId buildStatus } } ∧
      (updateBuildStatus st.lastPipelineData.builds buildId buildStatus).map (fun b => b.id)
        = st.lastPipelineData.builds.map (fun b => b.id) ∧
      List.Forall₂ (fun b b2 => b2.id = b.id ∧ b2.name = b.name ∧ b2.stage = b.stage ∧
          (b2.status = b.status ∨ (b.id = buildId ∧ b2.status = buildStatus)))
        st.lastPipelineData.builds
        (updateBuildStatus st.lastPipelineData.builds buildId buildStatus) ∧
      (buildId ∉ st.lastPipelineData.builds.map (fun b => b.id) →
        (webhookStep envChannel store (GitlabEvent.build pipelineId buildId buildStatus)
            po uo).store pipelineId = some st ∧
        (webhookStep envChannel store (GitlabEvent.build pipelineId buildId buildStatus)
            po uo).calls
          = [DispatchCall.updateMessage st.channel st.ts
              (buildPipelineMessageBlocks st.lastPipelineData st.expandedStages)
              (some "Pipeline status updated.")])) ∧
    (store pipelineId = none →
      (webhookStep envChannel store (GitlabEvent.build pipelineId buildId buildStatus)
          po uo).store = store ∧
      (webhookStep envChannel store (GitlabEvent.build pipelineId buildId buildStatus)
          po uo).calls = []) := by
  constructor
  · intro st hst
    have hstep : webhookStep envChannel store
        (GitlabEvent.build pipelineId buildId buildStatus) po uo
      = ⟨200, setState store pipelineId
          { st with lastPipelineData := { st.lastPipelineData with
              builds := updateBuildStatus st.lastPipelineData.builds buildId buildStatus } },
          [DispatchCall.updateMessage st.channel st.ts
            (buildPipelineMessageBlocks
              { st.lastPipelineData with
                builds := updateBuildStatus st.lastPipelineData.builds buildId buildStatus }
              st.expandedStages)
            (some "Pipeline status updated.")]⟩ := by
      simp only [webhookStep, hst]
      cases uo <;> rfl
    refine ⟨?_, updateBuildStatus_map_id _ _ _, updateBuildStatus_entrywise _ _ _,
      fun habs => ?_⟩
    · rw [hstep]; simp [setState]
    · have heq := updateBuildStatus_absent st.lastPipelineData.builds buildId buildStatus habs
      constructor
      · rw [hstep]; simp [setState, heq]
      · rw [hstep]; simp [heq]
  · intro hnone
    constructor
    · simp only [webhookStep, hnone]
    · simp only [webhookStep, hnone]

/-- Witness for C3: a job event whose id is absent from the stored snapshot
leaves the stored state unchanged. -/
theorem job_event_snapshot_invariant_witness :
    (webhookStep "CHAN" storeToggleCex (GitlabEvent.build 7 999 "failed")
        (Except.ok { ok := true, ts := none, channel := none }) (Except.ok ())).store 7
      = some stToggleCex :=
  (((job_event_snapshot_invariant "CHAN" storeToggleCex 7 999 "failed"
      (Except.ok { ok := true, ts := none, channel := none }) (Except.ok ())).1
    stToggleCex (by decide)).2.2.2 (by decide)).1

/-! ## Claim C2 — show-log patches exactly one block -/

/-- `findIndex` returns the index of the first element satisfying the
predicate. -/
theorem findIndex_eq_some {α : Type} (p : α → Bool) (l : List α) (i : Nat) (b : α)
    (hi : l[i]? = some b) (hb : p b = true)
    (hmin : ∀ j, j < i → ∀ c, l[j]? = some c → p c = false) :
    findIndex p l = some i := by
  induction l generalizing i with
  | nil => simp at hi
  | cons a as ih =>
    cases i with
    | zero =>
      rw [List.getElem?_cons_zero] at hi
      injection hi with hi
      subst hi
      unfold findIndex
      rw [if_pos hb]
    | succ k =>
      have ha : p a = false := hmin 0 (Nat.succ_pos k) a List.getElem?_cons_zero
      unfold findIndex
      rw [if_neg (by simp [ha])]
      rw [ih k (by simpa using hi)
        (fun j hj c hc => hmin (j + 1) (by omega) c (by simpa using hc))]
      rfl

/-- C2: a show-log action whose `(actionId, value)` pair matches a control of
the first matching action-group block at index `i` replaces exactly that
block with the log block; every other block of the message — including other
diagnostic controls in other action groups — is byte-identical to the
pre-action rendering. -/
theorem show_log_patch_locality (actionValue errorLog : String) (blocks : List Block)
    (i : Nat) (b : Block)
    (hi : blocks[i]? = some b)
    (hb : matchesErrorControl actionValue b = true)
    (hfirst : (blocks.take i).filter (matchesErrorControl actionValue) = []) :
    showErrorLogAction actionValue errorLog blocks
      = blocks.set i (Block.sectionText errorLog none) ∧
    (showErrorLogAction actionValue errorLog blocks)[i]?
      = some (Block.sectionText errorLog none) ∧
    (∀ j, j ≠ i →
      (showErrorLogAction actionValue errorLog blocks)[j]? = blocks[j]?) := by
  have hmin : ∀ j, j < i → ∀ c, blocks[j]? = some c →
      matchesErrorControl actionValue c = false := by
    intro j hj c hc
    have hcmem : c ∈ blocks.take i := by
      apply List.getElem?_mem (n := j)
      rw [List.getElem?_take]
      rw [if_pos hj]
      exact hc
    have := (List.filter_eq_nil_iff.mp hfirst) c hcmem
    exact Bool.not_eq_true _ ▸ (by simpa using this)
  have hfi := findIndex_eq_some (matchesErrorControl actionValue) blocks i b hi hb hmin
  have hset : showErrorLogAction actionValue errorLog blocks
      = blocks.set i (Block.sectionText errorLog none) := by
    simp [showErrorLogAction, hfi]
  obtain ⟨hlen, -⟩ := List.getElem?_eq_some.mp hi
  refine ⟨hset, ?_, ?_⟩
  · rw [hset]
    exact List.getElem?_set_self hlen
  · intro j hj
    rw [hset]
    exact List.getElem?_set_ne (fun he => hj he.symm)

/-- Witness for C2: patching the second action group of the sample message. -/
theorem show_log_patch_locality_witness :
    showErrorLogAction "3" "```log```" blocksPatchSample
      = blocksPatchSample.set 3 (Block.sectionText "```log```" none) :=
  (show_log_patch_locality "3" "```log```" blocksPatchSample 3
      (Block.actions [errorButton (sampleBuild 3 "failed" "t")])
      (by decide) (by decide) (by decide)).1

/-! ## Claim C5 — the renderer never emits an oversized block -/

/-- C5: every rendered block respects the transport ceilings — at most 10
fields per job-detail section block, at most 5 controls per action block —
and an expanded stage with 23 jobs renders exactly 3 detail blocks with
field counts 10, 10, 3. -/
theorem renderer_never_oversized :
    (∀ (pipelineData : PipelineData) (expandedStages : List String),
      ∀ b ∈ buildPipelineMessageBlocks pipelineData expandedStages, blockSizeOk b) ∧
    (buildPipelineMessageBlocks pdTwentyThree ["test"]).filterMap detailFieldCount
      = [10, 10, 3] := by
  constructor
  · intro pd es b hb
    simp only [buildPipelineMessageBlocks, List.mem_append] at hb
    rcases hb with (hb | hb) | hb
    · simp only [List.mem_cons, List.not_mem_nil, or_false] at hb
      rcases hb with rfl | rfl | rfl <;> trivial
    · rw [List.mem_flatMap] at hb
      obtain ⟨s, -, hbs⟩ := hb
      simp only [stageGroup] at hbs
      split at hbs
      · rcases List.mem_singleton.mp hbs with rfl
        trivial
      · split at hbs
        · rcases List.mem_cons.mp hbs with rfl | hbs
          · trivial
          · rw [List.mem_map] at hbs
            obtain ⟨c, hc, rfl⟩ := hbs
            exact chunkList_mem_length 10 _ c hc
        · rcases List.mem_singleton.mp hbs with rfl
          trivial
    · simp only [errorButtonBlocks] at hb
      split at hb
      · simp at hb
      · rcases List.mem_cons.mp hb with rfl | hb
        · trivial
        · rw [List.mem_map] at hb
          obtain ⟨c, hc, rfl⟩ := hb
          exact chunkList_mem_length 5 _ c hc
  · decide

/-- Witness for C5: a concrete block of the 23-job sample rendering respects
the ceilings. -/
theorem renderer_never_oversized_witness :
    Block.divider ∈ buildPipelineMessageBlocks pdTwentyThree ["test"] ∧
    blockSizeOk Block.divider :=
  ⟨by decide, renderer_never_oversized.1 pdTwentyThree ["test"] Block.divider (by decide)⟩

/-! ## Claim C6 — toggle round-trip -/

/-- C6 as stated is false: with stage `build` already in the expanded-stage
set, toggle-show (a no-op on the set) followed by toggle-hide removes the
stage, so the re-rendered block sequence differs from the pre-show rendering
(which had the stage expanded). -/
theorem toggle_round_trip_counterexample :
    (toggleStageVisibility
        (toggleStageVisibility storeToggleCex "build" 7 true "C1" "111.222").1
        "build" 7 false "C1" "111.222").2
      ≠ [DispatchCall.updateMessage "C1" "111.222"
          (buildPipelineMessageBlocks pdToggleCex ["build"]) none] := by
  decide

/-- C6 (amended): provided the stage is not already in the expanded-stage
set, toggle-show followed by toggle-hide on the same stage (snapshot
unchanged in between) issues an update carrying exactly the block sequence
the renderer produced before the toggle-show, and restores the stored
state. -/
theorem toggle_round_trip (store : Store) (stageName : String) (pipelineId : Nat)
    (bodyChannel bodyTs : String) (st : PipelineMessage)
    (hst : store pipelineId = some st)
    (hnot : stageName ∉ st.expandedStages) :
    (toggleStageVisibility
        (toggleStageVisibility store stageName pipelineId true bodyChannel bodyTs).1
        stageName pipelineId false bodyChannel bodyTs).2
      = [DispatchCall.updateMessage bodyChannel bodyTs
          (buildPipelineMessageBlocks st.lastPipelineData st.expandedStages) none] ∧
    (toggleStageVisibility
        (toggleStageVisibility store stageName pipelineId true bodyChannel bodyTs).1
        stageName pipelineId false bodyChannel bodyTs).1 pipelineId
      = some st := by
  have h1 : (toggleStageVisibility store stageName pipelineId true bodyChannel bodyTs).1
      = setState store pipelineId
          { st with expandedStages := jsSetAdd st.expandedStages stageName } := by
    simp [toggleStageVisibility, hst]
  have h2 : setState store pipelineId
        { st with expandedStages := jsSetAdd st.expandedStages stageName } pipelineId
      = some { st with expandedStages := jsSetAdd st.expandedStages stageName } := by
    simp [setState]
  have hdel := jsSetDelete_jsSetAdd st.expandedStages stageName hnot
  rw [h1]
  constructor
  · simp [toggleStageVisibility, h2, hdel]
  · simp [toggleStageVisibility, h2, hdel, setState]

/-- Witness for the amended C6 at a collapsed sample state. -/
theorem toggle_round_trip_witness :
    (toggleStageVisibility
        (toggleStageVisibility storeCollapsed "build" 7 true "C1" "111.222").1
        "build" 7 false "C1" "111.222").2
      = [DispatchCall.updateMessage "C1" "111.222"
          (buildPipelineMessageBlocks pdToggleCex []) none] :=
  (toggle_round_trip storeCollapsed "build" 7 "C1" "111.222" stCollapsed rfl
    (by decide)).1

/-! ## Claim C7 — one stage line per declared stage, in declared order -/

/-- One grouping step changes exactly the bucket of the inserted build's
stage, appending the build at its end. -/
theorem lookupStage_addToStage (m : List (String × List Build)) (b : Build) (s : String) :
    lookupStage (addToStage m b) s
      = if b.stage == s then lookupStage m s ++ [b] else lookupStage m s := by
  unfold addToStage
  by_cases hany : m.any (fun p => p.1 == b.stage)
  · rw [if_pos hany]
    unfold lookupStage
    rw [List.find?_map]
    have hcomp : ((fun p : String × List Build => p.1 == s)
          ∘ (fun p : String × List Build => if p.1 == b.stage then (p.1, p.2 ++ [b]) else p))
        = fun p : String × List Build => p.1 == s := by
      funext p
      by_cases hp : (p.1 == b.stage) = true
      · have hp2 : p.1 = b.stage := by simpa using hp
        simp [hp2]
      · have hp2 : ¬ p.1 = b.stage := by simpa using hp
        simp [hp2]
    rw [hcomp]
    by_cases hbs : (b.stage == s) = true
    · rw [if_pos hbs]
      cases hq : m.find? (fun p => p.1 == s) with
      | none =>
        rw [List.find?_eq_none] at hq
        obtain ⟨p, hpmem, hpb⟩ := List.any_eq_true.mp hany
        have h1 : p.1 = b.stage := by simpa using hpb
        have h2 : b.stage = s := by simpa using hbs
        exact absurd (by simp [h1, h2] : (p.1 == s) = true) (hq p hpmem)
      | some q =>
        have hq1 := List.find?_some hq
        have hqb : (q.1 == b.stage) = true := by
          have h1 : q.1 = s := by simpa using hq1
          have h2 : b.stage = s := by simpa using hbs
          simp [h1, h2]
        have hqb2 : q.1 = b.stage := by simpa using hqb
        simp [hqb2]
    · rw [if_neg hbs]
      cases hq : m.find? (fun p => p.1 == s) with
      | none => simp
      | some q =>
        have hq1 := List.find?_some hq
        have hqb : (q.1 == b.stage) = false := by
          have h1 : q.1 = s := by simpa using hq1
          have h2 : ¬ b.stage = s := by simpa using hbs
          simp [h1]
          exact fun he => h2 he.symm
        have hqb2 : ¬ q.1 = b.stage := by simpa using hqb
        simp [hqb2]
  · rw [if_neg hany]
    unfold lookupStage
    rw [List.find?_append]
    by_cases hbs : (b.stage == s) = true
    · rw [if_pos hbs]
      have hnone : m.find? (fun p => p.1 == s) = none := by
        rw [List.find?_eq_none]
        intro p hp hcontra
        apply hany
        rw [List.any_eq_true]
        refine ⟨p, hp, ?_⟩
        have h1 : p.1 = s := by simpa using hcontra
        have h2 : b.stage = s := by simpa using hbs
        simp [h1, h2]
      rw [hnone]
      simp [hbs, hnone]
    · rw [if_neg hbs]
      have hlast : List.find? (fun p : String × List Build => p.1 == s) [(b.stage, [b])]
          = none := by
        simp [List.find?, hbs]
      rw [hlast]
      simp

/-- The grouped bucket for a stage is exactly the order-preserving filter of
the builds list by that stage name. -/
theorem lookupStage_buildsByStage (builds : List Build) (s : String) :
    lookupStage (buildsByStage builds) s = builds.filter (fun b => b.stage == s) := by
  have general : ∀ (l : List Build) (m : List (String × List Build)),
      lookupStage (l.foldl addToStage m) s
        = lookupStage m s ++ l.filter (fun b => b.stage == s) := by
    intro l
    induction l with
    | nil => intro m; simp
    | cons b bs ih =>
      intro m
      rw [List.foldl_cons, ih, lookupStage_addToStage]
      by_cases hbs : (b.stage == s) = true
      · rw [if_pos hbs]
        simp [List.filter_cons, hbs, List.append_assoc]
      · rw [if_neg hbs]
        simp [List.filter_cons, hbs]
  have h0 : lookupStage [] s = [] := rfl
  rw [buildsByStage, general builds [], h0, List.nil_append]

/-- `Array.prototype.some` is invariant under permutation of the array. -/
theorem any_eq_of_perm {α : Type} {l1 l2 : List α} (h : l1.Perm l2) (p : α → Bool) :
    l1.any p = l2.any p := by
  cases h1 : l1.any p with
  | true =>
    obtain ⟨x, hx, hpx⟩ := List.any_eq_true.mp h1
    exact (List.any_eq_true.mpr ⟨x, h.mem_iff.mp hx, hpx⟩).symm
  | false =>
    cases h2 : l2.any p with
    | false => rfl
    | true =>
      obtain ⟨x, hx, hpx⟩ := List.any_eq_true.mp h2
      have : l1.any p = true := List.any_eq_true.mpr ⟨x, h.mem_iff.mpr hx, hpx⟩
      rw [h1] at this
      exact absurd this (by simp)

/-- `Array.prototype.every` is invariant under permutation of the array. -/
theorem all_eq_of_perm {α : Type} {l1 l2 : List α} (h : l1.Perm l2) (p : α → Bool) :
    l1.all p = l2.all p := by
  cases h1 : l1.all p with
  | true =>
    have hall := List.all_eq_true.mp h1
    exact (List.all_eq_true.mpr (fun x hx => hall x (h.mem_iff.mpr hx))).symm
  | false =>
    cases h2 : l2.all p with
    | false => rfl
    | true =>
      have hall := List.all_eq_true.mp h2
      have : l1.all p = true := List.all_eq_true.mpr (fun x hx => hall x (h.mem_iff.mp hx))
      rw [h1] at this
      exact absurd this (by simp)

/-- The derived stage status does not depend on the arrival order of the
stage's builds. -/
theorem getStageStatus_perm {l1 l2 : List Build} (h : l1.Perm l2) :
    getStageStatus l1 = getStageStatus l2 := by
  unfold getStageStatus
  rw [any_eq_of_perm h, all_eq_of_perm h, all_eq_of_perm h]

/-- Restricting a stage group to its stage lines keeps exactly the one stage
line the loop emitted for that stage. -/
theorem filter_stageGroup (pd : PipelineData) (es : List String) (s : String) :
    (stageGroup pd es s).filter isStageLine = [stageLineBlock pd es s] := by
  by_cases h1 : (lookupStage (buildsByStage pd.builds) s).isEmpty
  · simp [stageGroup, stageLineBlock, h1, isStageLine]
  · by_cases h2 : s ∈ es
    · simp [stageGroup, stageLineBlock, h1, h2, isStageLine, List.filter_map]
    · simp [stageGroup, stageLineBlock, h1, h2, isStageLine]

/-- Restricting the whole stage loop output to stage lines yields one line
per declared stage name, in declared order. -/
theorem filter_stageGroups (pd : PipelineData) (es : List String) (stages : List String) :
    (stages.flatMap (stageGroup pd es)).filter isStageLine
      = stages.map (stageLineBlock pd es) := by
  induction stages with
  | nil => rfl
  | cons s ss ih =>
    rw [List.flatMap_cons, List.filter_append, filter_stageGroup, ih]
    rfl

/-- The trailing error-log action blocks contain no stage line. -/
theorem filter_errorButtonBlocks (builds : List Build) :
    (errorButtonBlocks builds).filter isStageLine = [] := by
  by_cases h : (builds.filter (fun b => b.status == "failed")).isEmpty
  · simp [errorButtonBlocks, h]
  · simp [errorButtonBlocks, h, isStageLine, List.filter_map]

/-- C7: the renderer emits exactly one stage line per name in the snapshot's
declared stage list, in exactly that order, and this stage-line sequence is
independent of the order in which jobs appear in the builds list. -/
theorem stage_order_invariance (pd : PipelineData) (es : List String)
    (builds2 : List Build) (hperm : builds2.Perm pd.builds) :
    (buildPipelineMessageBlocks pd es).filter isStageLine
      = pd.object_attributes.stages.map (stageLineBlock pd es) ∧
    (buildPipelineMessageBlocks { pd with builds := builds2 } es).filter isStageLine
      = (buildPipelineMessageBlocks pd es).filter isStageLine := by
  have main : ∀ (q : PipelineData),
      (buildPipelineMessageBlocks q es).filter isStageLine
        = q.object_attributes.stages.map (stageLineBlock q es) := by
    intro q
    simp only [buildPipelineMessageBlocks, List.filter_append]
    rw [filter_stageGroups, filter_errorButtonBlocks]
    simp [isStageLine]
  have hsl : ∀ s, stageLineBlock { pd with builds := builds2 } es s
      = stageLineBlock pd es s := by
    intro s
    have hperm2 : (lookupStage (buildsByStage builds2) s).Perm
        (lookupStage (buildsByStage pd.builds) s) := by
      rw [lookupStage_buildsByStage, lookupStage_buildsByStage]
      exact hperm.filter _
    have hie : (lookupStage (buildsByStage builds2) s).isEmpty
        = (lookupStage (buildsByStage pd.builds) s).isEmpty := by
      have hlen := hperm2.length_eq
      cases hc1 : lookupStage (buildsByStage builds2) s <;>
        cases hc2 : lookupStage (buildsByStage pd.builds) s <;> simp_all
    have hst := getStageStatus_perm hperm2
    simp only [stageLineBlock, hie, hst]
  refine ⟨main pd, ?_⟩
  rw [main pd, main { pd with builds := builds2 }]
  rw [funext hsl]

/-- Witness for C7: the 23-job sample rendered with its builds reversed keeps
the same stage-line sequence. -/
theorem stage_order_invariance_witness :
    (buildPipelineMessageBlocks pdTwentyThreeRev ["test"]).filter isStageLine
      = (buildPipelineMessageBlocks pdTwentyThree ["test"]).filter isStageLine :=
  (stage_order_invariance pdTwentyThree ["test"] pdTwentyThree.builds.reverse
    (List.reverse_perm pdTwentyThree.builds)).2
